import Mathlib

/-!
Verification of the flagreddit data-collection pipeline (`dataset.py`).

The file shallowly embeds the pipeline: JSON values are an inductive type,
Python dicts are association lists in document order, fallible operations
return `Option`, the HTTP layer is an oracle mapping a request to a response,
and `random.shuffle` is modelled by quantifying over permutations of the list.
-/

/-- JSON values as produced by `json.loads`.  Arrays and objects are encoded
as cons-chains (`arrCons`/`arrNil`, `objCons`/`objNil`) so that structural
equality is derivable; the encoding is isomorphic to the usual nested lists.
Objects keep the key order of the document (which `json.loads` preserves), so
structural equality on nested values coincides with Python dict equality on
the values the program actually handles; top-level record comparison
(`post not in posts`) is modelled separately by `dictEqb`, which is
key-order independent like the Python `==` on dicts. -/
inductive JVal : Type where
  | null : JVal
  | bool : Bool → JVal
  | int : Int → JVal
  | str : String → JVal
  | arrNil : JVal
  | arrCons : JVal → JVal → JVal
  | objNil : JVal
  | objCons : String → JVal → JVal → JVal
  deriving DecidableEq, Repr

/-- A post record: a Python dict with string keys, kept in insertion order. -/
abbrev Post := List (String × JVal)

/-- Embeds the constant `WANTED_KEYS` of dataset.py: the list of the four wanted keys. -/
def WANTED_KEYS : List String := ["author", "created_utc", "title", "link_flair_text"]

/-- Python dict equality (`post == q`): the two mappings agree on every key.
Iterating the keys of both sides suffices; keys in neither map look up to
`none` on both sides. -/
def dictEqb (d1 d2 : Post) : Bool :=
  (d1.map Prod.fst ++ d2.map Prod.fst).all fun k => d1.lookup k == d2.lookup k

/-- Embeds the filter condition `WANTED_KEYS[-1] in post`: the flair key is
present in the record. -/
def hasFlair (post : Post) : Bool :=
  (post.lookup (WANTED_KEYS.getLastD "")).isSome

/-- Loop of `preprocess` pass 1 (dedup + flair filter), with `acc` the
intermediate list `posts`:
`if post not in posts and WANTED_KEYS[-1] in post: posts.append(post)`. -/
def dedupGo : List Post → List Post → List Post
  | [], acc => acc
  | post :: rest, acc =>
    if (!(acc.any fun q => dictEqb post q)) && hasFlair post then
      dedupGo rest (acc ++ [post])
    else
      dedupGo rest acc

/-- Pass 1 of `preprocess`: deduplicate (by dict equality) and keep only
flaired posts, starting from the empty intermediate list `posts = []`. -/
def dedupFilter (dataset : List Post) : List Post :=
  dedupGo dataset []

/-- Iteration of the projection comprehension `{key: post[key] for key in
WANTED_KEYS}` over the key list.  A key lookup `post[key]` on a missing key
raises `KeyError`, modelled by `none`. -/
def projectKeys (post : Post) : List String → Option Post
  | [] => some []
  | key :: rest =>
    (post.lookup key).bind fun v => (projectKeys post rest).map fun tail => (key, v) :: tail

/-- Embeds the projection comprehension `{key: post[key] for key in WANTED_KEYS}`. -/
def project (post : Post) : Option Post :=
  projectKeys post WANTED_KEYS

/-- Iteration of the pass-2 list comprehension
`[{key: post[key] for key in WANTED_KEYS} for post in posts]`; a `KeyError`
on any record aborts the whole comprehension (`none`). -/
def projectAll : List Post → Option (List Post)
  | [] => some []
  | post :: rest =>
    (project post).bind fun proj => (projectAll rest).map fun tail => proj :: tail

/-- Embeds `preprocess`: pass 1 (dedup + flair filter) followed by the
projection of every surviving record; `none` models the uncaught `KeyError`
when a surviving record lacks one of the first three wanted keys. -/
def preprocess (dataset : List Post) : Option (List Post) :=
  projectAll (dedupFilter dataset)

/- Basic lemmas about lookups and dict equality. -/

theorem lookup_cons {β : Type} (a k : String) (b : β) (es : List (String × β)) :
    List.lookup a ((k, b) :: es) = if a = k then some b else List.lookup a es := by
  by_cases h : a = k
  · simp [List.lookup, h]
  · have hb : (a == k) = false := by simpa using h
    simp [List.lookup, hb, h]

theorem lookup_eq_none_of_not_mem_keys (d : Post) (k : String)
    (h : k ∉ d.map Prod.fst) : d.lookup k = none := by
  induction d with
  | nil => rfl
  | cons kv rest ih =>
    simp only [List.map_cons, List.mem_cons] at h
    push_neg at h
    rw [show kv = (kv.1, kv.2) from rfl, lookup_cons, if_neg h.1]
    exact ih h.2

theorem dictEqb_iff (d1 d2 : Post) :
    dictEqb d1 d2 = true ↔ ∀ k, d1.lookup k = d2.lookup k := by
  constructor
  · intro h k
    rw [dictEqb, List.all_eq_true] at h
    by_cases hk : k ∈ d1.map Prod.fst ++ d2.map Prod.fst
    · simpa using h k hk
    · simp only [List.mem_append] at hk
      push_neg at hk
      rw [lookup_eq_none_of_not_mem_keys d1 k hk.1,
        lookup_eq_none_of_not_mem_keys d2 k hk.2]
  · intro h
    rw [dictEqb, List.all_eq_true]
    intro k _
    simp [h k]

theorem dictEqb_refl (d : Post) : dictEqb d d = true :=
  (dictEqb_iff d d).2 fun _ => rfl

theorem dictEqb_symm {d1 d2 : Post} (h : dictEqb d1 d2 = true) :
    dictEqb d2 d1 = true :=
  (dictEqb_iff d2 d1).2 fun k => ((dictEqb_iff d1 d2).1 h k).symm

theorem dictEqb_symm_false {d1 d2 : Post} (h : dictEqb d1 d2 = false) :
    dictEqb d2 d1 = false := by
  cases he : dictEqb d2 d1 with
  | false => rfl
  | true => rw [dictEqb_symm he] at h; cases h

/- Lemmas about the pass-1 loop. -/

theorem dedupGo_acc_subset (l : List Post) :
    ∀ acc : List Post, acc ⊆ dedupGo l acc := by
  induction l with
  | nil => intro acc; exact fun _ h => h
  | cons p rest ih =>
    intro acc
    simp only [dedupGo]
    by_cases hc : ((!(acc.any fun q => dictEqb p q)) && hasFlair p) = true
    · rw [if_pos hc]
      exact fun x hx => ih (acc ++ [p]) (List.mem_append_left _ hx)
    · rw [if_neg hc]
      exact ih acc

theorem dedupGo_mem_flair (l : List Post) :
    ∀ acc post, post ∈ l → hasFlair post = true →
      ∃ q ∈ dedupGo l acc, dictEqb q post = true := by
  induction l with
  | nil => intro acc post h; cases h
  | cons p rest ih =>
    intro acc post hmem hflair
    simp only [dedupGo]
    rcases List.mem_cons.1 hmem with heq | hrest
    · subst heq
      by_cases hc : ((!(acc.any fun q => dictEqb post q)) && hasFlair post) = true
      · rw [if_pos hc]
        exact ⟨post, dedupGo_acc_subset rest (acc ++ [post])
          (List.mem_append_right _ (List.mem_singleton.2 rfl)), dictEqb_refl post⟩
      · rw [if_neg hc]
        have hany : (acc.any fun q => dictEqb post q) = true := by
          by_contra hn
          rw [Bool.not_eq_true] at hn
          exact hc (by rw [hn, hflair]; rfl)
        rw [List.any_eq_true] at hany
        obtain ⟨q, hq, hqe⟩ := hany
        exact ⟨q, dedupGo_acc_subset rest acc hq, dictEqb_symm hqe⟩
    · by_cases hc : ((!(acc.any fun q => dictEqb p q)) && hasFlair p) = true
      · rw [if_pos hc]; exact ih (acc ++ [p]) post hrest hflair
      · rw [if_neg hc]; exact ih acc post hrest hflair

theorem dedupGo_mem_origin (l : List Post) :
    ∀ acc, ∀ q ∈ dedupGo l acc, q ∈ acc ∨ (q ∈ l ∧ hasFlair q = true) := by
  induction l with
  | nil => intro acc q hq; exact Or.inl hq
  | cons p rest ih =>
    intro acc q hq
    simp only [dedupGo] at hq
    by_cases hc : ((!(acc.any fun r => dictEqb p r)) && hasFlair p) = true
    · rw [if_pos hc] at hq
      rcases ih (acc ++ [p]) q hq with hacc | hor
      · rcases List.mem_append.1 hacc with h | h
        · exact Or.inl h
        · rw [List.mem_singleton] at h
          subst h
          have hfl : hasFlair q = true := by
            rw [Bool.and_eq_true] at hc
            exact hc.2
          exact Or.inr ⟨List.mem_cons_self _ _, hfl⟩
      · exact Or.inr ⟨List.mem_cons_of_mem _ hor.1, hor.2⟩
    · rw [if_neg hc] at hq
      rcases ih acc q hq with hacc | hor
      · exact Or.inl hacc
      · exact Or.inr ⟨List.mem_cons_of_mem _ hor.1, hor.2⟩

theorem dedupGo_pairwise (l : List Post) :
    ∀ acc, acc.Pairwise (fun a b => dictEqb a b = false) →
      (dedupGo l acc).Pairwise (fun a b => dictEqb a b = false) := by
  induction l with
  | nil => intro acc h; exact h
  | cons p rest ih =>
    intro acc hacc
    simp only [dedupGo]
    by_cases hc : ((!(acc.any fun q => dictEqb p q)) && hasFlair p) = true
    · rw [if_pos hc]
      refine ih (acc ++ [p]) ?_
      rw [List.pairwise_append]
      refine ⟨hacc, List.pairwise_singleton _ _, ?_⟩
      intro a ha b hb
      rw [List.mem_singleton] at hb
      subst hb
      rw [Bool.and_eq_true] at hc
      have hnone := hc.1
      rw [Bool.not_eq_true'] at hnone
      rw [List.any_eq_false] at hnone
      exact dictEqb_symm_false (by simpa using hnone a ha)
    · rw [if_neg hc]
      exact ih acc hacc

/- Lemmas about the projection comprehensions. -/

theorem projectAll_eq_none {l : List Post} {q : Post} (hq : q ∈ l)
    (hnone : project q = none) : projectAll l = none := by
  induction l with
  | nil => cases hq
  | cons a rest ih =>
    rcases List.mem_cons.1 hq with he | hr
    · subst he
      simp [projectAll, hnone]
    · cases hfa : project a with
      | none => simp [projectAll, hfa]
      | some b => simp [projectAll, hfa, ih hr]

theorem projectAll_mem {l : List Post} {out : List Post} (h : projectAll l = some out) :
    ∀ p ∈ out, ∃ q ∈ l, project q = some p := by
  induction l generalizing out with
  | nil =>
    simp only [projectAll, Option.some.injEq] at h
    subst h
    intro p hp
    cases hp
  | cons a rest ih =>
    intro p hp
    simp only [projectAll] at h
    cases hfa : project a with
    | none => rw [hfa] at h; cases h
    | some b =>
      rw [hfa] at h
      cases hrest : projectAll rest with
      | none => rw [hrest] at h; cases h
      | some bs =>
        rw [hrest] at h
        simp at h
        subst h
        rcases List.mem_cons.1 hp with he | hbs
        · exact ⟨a, List.mem_cons_self _ _, he ▸ hfa⟩
        · obtain ⟨q, hq, hfq⟩ := ih hrest p hbs
          exact ⟨q, List.mem_cons_of_mem _ hq, hfq⟩

theorem project_eq (post : Post) :
    project post =
      match post.lookup "author", post.lookup "created_utc",
          post.lookup "title", post.lookup "link_flair_text" with
      | some a, some c, some t, some f =>
        some [("author", a), ("created_utc", c), ("title", t), ("link_flair_text", f)]
      | _, _, _, _ => none := by
  rw [project, WANTED_KEYS]
  cases ha : post.lookup "author" <;> cases hc : post.lookup "created_utc" <;>
    cases ht : post.lookup "title" <;> cases hf : post.lookup "link_flair_text" <;>
    simp [projectKeys, ha, hc, ht, hf]

theorem project_eq_some {post proj : Post} (h : project post = some proj) :
    ∃ a c t f, proj = [("author", a), ("created_utc", c), ("title", t), ("link_flair_text", f)] ∧
      post.lookup "author" = some a ∧ post.lookup "created_utc" = some c ∧
      post.lookup "title" = some t ∧ post.lookup "link_flair_text" = some f := by
  rw [project_eq] at h
  cases ha : post.lookup "author" <;> rw [ha] at h
  · cases h
  cases hc : post.lookup "created_utc" <;> rw [hc] at h
  · cases h
  cases ht : post.lookup "title" <;> rw [ht] at h
  · cases h
  cases hf : post.lookup "link_flair_text" <;> rw [hf] at h
  · cases h
  rename_i a c t f
  injection h with h2
  exact ⟨a, c, t, f, h2.symm, rfl, rfl, rfl, rfl⟩

/- The splitter.  `random.shuffle(dataset)` permutes the list in place and
`int(ratio * len(dataset))` is computed in IEEE-754 binary64 arithmetic, so
the embedding models the rounding of the product explicitly. -/

/-- Rounds a rational to the nearest integer, ties to even — the rounding
used by IEEE-754 binary64 on the scaled significand. -/
def roundHalfEven (q : ℚ) : ℤ :=
  if q - ⌊q⌋ < 1 / 2 then ⌊q⌋
  else if 1 / 2 < q - ⌊q⌋ then ⌊q⌋ + 1
  else if ⌊q⌋ % 2 = 0 then ⌊q⌋ else ⌊q⌋ + 1

/-- Rounds a rational to the nearest IEEE-754 binary64 value (round to
nearest, ties to even): the significand `q / 2 ^ (e - 52)` with
`e = ⌊log₂ |q|⌋` is rounded to an integer.  Exponent-range overflow and
subnormals are outside the magnitudes this program produces and are not
modelled. -/
def fl64 (q : ℚ) : ℚ :=
  if q = 0 then 0
  else if 0 < q then
    (roundHalfEven (q * 2 ^ (52 - Int.log 2 q)) : ℚ) * 2 ^ (Int.log 2 q - 52)
  else
    -((roundHalfEven (-q * 2 ^ (52 - Int.log 2 (-q))) : ℚ) * 2 ^ (Int.log 2 (-q) - 52))

/-- Python `int()` on a float: truncation toward zero. -/
def pyInt (q : ℚ) : ℤ :=
  if 0 ≤ q then ⌊q⌋ else -⌊-q⌋

/-- Embeds `shuffle_and_split`.  `shuffled` is the contents of `dataset`
after the in-place `random.shuffle`; the theorems quantify over all
permutations of the input.  `split_index = int(ratio * len(dataset))` is one
binary64 multiplication (list lengths here are far below `2 ^ 53`, so the
length converts to float exactly) followed by truncation; slicing with the
resulting nonnegative index is `take`/`drop`. -/
def shuffle_and_split (shuffled : List Post) (ratio : ℚ) : List Post × List Post :=
  (shuffled.take (pyInt (fl64 (ratio * (shuffled.length : ℚ)))).toNat,
   shuffled.drop (pyInt (fl64 (ratio * (shuffled.length : ℚ)))).toNat)

/-- State-passing embedding of `preprocess` for the frame property: the
second component is the caller-visible contents of the argument list after
the call.  The body only reads `dataset` (the pass-1 loop iterates over it)
and writes the local `posts`, so the final contents of the argument are the
argument itself. -/
def preprocessSt (dataset : List Post) : Option (List Post) × List Post :=
  (preprocess dataset, dataset)

/-- State-passing embedding of `shuffle_and_split`: `random.shuffle(dataset)`
writes the permutation into the argument in place, so the caller-visible
contents after the call are the shuffled list. -/
def shuffle_and_splitSt (shuffled : List Post) (ratio : ℚ) :
    (List Post × List Post) × List Post :=
  (shuffle_and_split shuffled ratio, shuffled)

/- The HTTP layer.  A response is modelled by its status code and the JSON
document its body decodes to (`json.loads` of the content); the network is
an oracle from the request parameters `(subreddit, before, size)` to a
response. -/

/-- An HTTP response: status code and parsed JSON body. -/
structure Response where
  status_code : Nat
  body : JVal
  deriving Repr

/-- Embeds `get_posts`: performs the request for the given parameters and
returns the parsed body on status 200, `None` otherwise. -/
def get_posts (net : String → String → Nat → Response)
    (subreddit : String) (before : String) (size : Nat) : Option JVal :=
  if (net subreddit before size).status_code = 200 then
    some (net subreddit before size).body
  else
    none

/-- Converts an encoded JSON array to the list of its elements; `none` on a
non-array value. -/
def arrToList : JVal → Option (List JVal)
  | JVal.arrNil => some []
  | JVal.arrCons h t => (arrToList t).map fun l => h :: l
  | _ => none

/-- Lookup in an encoded JSON object; `none` if the key is absent or the
value is not an object. -/
def objLookup : JVal → String → Option JVal
  | JVal.objCons k v t, key => if key = k then some v else objLookup t key
  | _, _ => none

/-- Embeds the `data` item access on `posts` followed by `dataset.extend`: the parsed
body must be an object whose `data` key holds an array; a missing key or a
non-array value raises (`KeyError`/`TypeError`), modelled by `none`. -/
def dataField (posts : JVal) : Option (List JVal) :=
  (objLookup posts "data").bind arrToList

/-- Result of a run of `create_dataset`: the accumulated dataset (`none`
models an uncaught exception aborting the run), the lines printed, and the
trace of requests `(subreddit, before, size)` actually issued. -/
structure CollectResult where
  dataset : Option (List JVal)
  log : List String
  requests : List (String × String × Nat)
  deriving Repr

/-- Loop of `create_dataset`: for each day index `i`, calls
`get_posts` for the subreddit science with `before` the day suffixed by `d` and
`size = min(nb_per_day, 500)`, extends
the dataset on success, prints `[!] Request failed` on a `None` result, and
aborts (uncaught exception) if a 200 response has no `data` array. -/
def collectGo (net : String → String → Nat → Response) (nb_per_day : Nat) :
    List Nat → List JVal → List String → List (String × String × Nat) → CollectResult
  | [], ds, log, reqs => ⟨some ds, log, reqs⟩
  | i :: rest, ds, log, reqs =>
    match get_posts net "science" (toString i ++ "d") (min nb_per_day 500) with
    | some posts =>
      match dataField posts with
      | some l =>
        collectGo net nb_per_day rest (ds ++ l) log
          (reqs ++ [("science", toString i ++ "d", min nb_per_day 500)])
      | none => ⟨none, log, reqs ++ [("science", toString i ++ "d", min nb_per_day 500)]⟩
    | none =>
      collectGo net nb_per_day rest ds (log ++ ["[!] Request failed"])
        (reqs ++ [("science", toString i ++ "d", min nb_per_day 500)])

/-- Embeds `create_dataset(days, nb_per_day)`: warns once when
`nb_per_day > 500`, then iterates `i = 0 .. days-1`. -/
def create_dataset (net : String → String → Nat → Response)
    (days : Nat) (nb_per_day : Nat) : CollectResult :=
  collectGo net nb_per_day (List.range days) []
    (if 500 < nb_per_day then
      ["Retrieving " ++ toString nb_per_day ++ " posts per day (can\x27t be >500)"]
    else [])
    []

/- Helper lemma: a record that lacks one of the wanted keys does not project. -/

theorem project_eq_none_of_missing {post : Post}
    (h : post.lookup "author" = none ∨ post.lookup "created_utc" = none ∨
      post.lookup "title" = none ∨ post.lookup "link_flair_text" = none) :
    project post = none := by
  rw [project_eq]
  rcases ha : post.lookup "author" with _ | a <;>
    rcases hc : post.lookup "created_utc" with _ | c <;>
      rcases ht : post.lookup "title" with _ | t <;>
        rcases hf : post.lookup "link_flair_text" with _ | f <;>
          simp_all

/- Concrete records used in counterexamples and witnesses. -/

/-- Raw record with all four wanted keys, a flair, and an extra key `score` of 1. -/
def cexPostA : Post :=
  [("author", JVal.str "a"), ("created_utc", JVal.int 1), ("title", JVal.str "t"),
   ("link_flair_text", JVal.str "f"), ("score", JVal.int 1)]

/-- Same as `cexPostA` except the extra key `score` is 2. -/
def cexPostB : Post :=
  [("author", JVal.str "a"), ("created_utc", JVal.int 1), ("title", JVal.str "t"),
   ("link_flair_text", JVal.str "f"), ("score", JVal.int 2)]

/-- The common projection of `cexPostA` and `cexPostB`. -/
def cexProj : Post :=
  [("author", JVal.str "a"), ("created_utc", JVal.int 1), ("title", JVal.str "t"),
   ("link_flair_text", JVal.str "f")]

/-- Record whose flair key is present but holds JSON `null`. -/
def nullFlairPost : Post :=
  [("author", JVal.str "a"), ("created_utc", JVal.int 1), ("title", JVal.str "t"),
   ("link_flair_text", JVal.null)]

/-- Fully flaired record used in witnesses. -/
def wPost : Post :=
  [("author", JVal.str "u"), ("created_utc", JVal.int 5), ("title", JVal.str "s"),
   ("link_flair_text", JVal.str "Physics")]

/-- Record with all four wanted keys plus an extra key, for the projection
round-trip witness. -/
def w6Post : Post :=
  [("author", JVal.str "u"), ("created_utc", JVal.int 7), ("title", JVal.str "s"),
   ("link_flair_text", JVal.str "Biology"), ("score", JVal.int 99)]

/-- Record that has the flair key but lacks the other three wanted keys. -/
def w7Post : Post := [("link_flair_text", JVal.str "f")]

/-- C2, counterexample: two raw records that differ only in an extra key both
survive pass 1 (they are not dict-equal) and project to the same four-key
record, so the output of `preprocess` contains two structurally equal
records, contradicting the claim. -/
theorem preprocess_output_dup_cex :
    preprocess [cexPostA, cexPostB] = some [cexProj, cexProj] ∧
    ¬ ([cexProj, cexProj].Pairwise fun a b => a ≠ b) := by
  constructor
  · decide
  · simp

/-- C2 (amended): the deduplication guarantee of `preprocess` holds of the
intermediate list of pass 1 (before projection): no two records of
`dedupFilter dataset` are equal as Python dicts.  The projected output can
still contain structural duplicates when two distinct surviving raw records
agree on all four wanted keys. -/
theorem dedupFilter_pairwise_distinct (dataset : List Post) :
    (dedupFilter dataset).Pairwise fun a b => dictEqb a b = false :=
  dedupGo_pairwise dataset [] List.Pairwise.nil

/-- C3, counterexample: a record whose flair key is present but bound to
JSON `null` passes the filter (which only tests key presence) and reaches
the output with a null flair value, contradicting the claim. -/
theorem preprocess_null_flair_cex :
    preprocess [nullFlairPost] = some [nullFlairPost] ∧
    nullFlairPost.lookup "link_flair_text" = some JVal.null := by
  constructor
  · decide
  · decide

/-- C3 (amended): every record in the output of `preprocess` has the flair
key `link_flair_text` present; its value is copied through unchecked and
may be JSON `null`. -/
theorem preprocess_flair_key_present (dataset out : List Post)
    (h : preprocess dataset = some out) :
    ∀ p ∈ out, (p.lookup "link_flair_text").isSome = true := by
  intro p hp
  obtain ⟨q, _, hproj⟩ := projectAll_mem h p hp
  obtain ⟨a, c, t, f, hshape, _, _, _, _⟩ := project_eq_some hproj
  subst hshape
  rfl

/-- Witness for C3 (amended) at a concrete input. -/
theorem preprocess_flair_key_present_witness :
    (wPost.lookup "link_flair_text").isSome = true :=
  preprocess_flair_key_present [wPost] [wPost] (by decide) wPost
    (List.mem_singleton.2 rfl)

/-- C6: a record that survives pass 1 and contains all four wanted keys
projects to a record with exactly those four keys, each bound to the value
it has in the source record. -/
theorem project_roundtrip (dataset : List Post) (post : Post)
    (_hmem : post ∈ dedupFilter dataset)
    (hkeys : ∀ k ∈ WANTED_KEYS, (post.lookup k).isSome = true) :
    ∃ proj, project post = some proj ∧
      proj.map Prod.fst = WANTED_KEYS ∧
      ∀ k ∈ WANTED_KEYS, proj.lookup k = post.lookup k := by
  have ha := hkeys "author" (by simp [WANTED_KEYS])
  have hc := hkeys "created_utc" (by simp [WANTED_KEYS])
  have ht := hkeys "title" (by simp [WANTED_KEYS])
  have hf := hkeys "link_flair_text" (by simp [WANTED_KEYS])
  rw [Option.isSome_iff_exists] at ha hc ht hf
  obtain ⟨a, ha⟩ := ha
  obtain ⟨c, hc⟩ := hc
  obtain ⟨t, ht⟩ := ht
  obtain ⟨f, hf⟩ := hf
  refine ⟨[("author", a), ("created_utc", c), ("title", t), ("link_flair_text", f)],
    ?_, rfl, ?_⟩
  · rw [project_eq, ha, hc, ht, hf]
  · intro k hk
    rw [WANTED_KEYS] at hk
    simp only [List.mem_cons, List.not_mem_nil, or_false] at hk
    rcases hk with rfl | rfl | rfl | rfl
    · rw [ha]; rfl
    · rw [hc]; rfl
    · rw [ht]; rfl
    · rw [hf]; rfl

/-- Witness for C6 at a concrete input with an extra key. -/
theorem project_roundtrip_witness :
    ∃ proj, project w6Post = some proj ∧
      proj.map Prod.fst = WANTED_KEYS ∧
      ∀ k ∈ WANTED_KEYS, proj.lookup k = w6Post.lookup k :=
  project_roundtrip [w6Post] w6Post (by decide) (by decide)

/-- C7: if the input contains a record that has the flair key but lacks
`author`, `created_utc` or `title`, then `preprocess` aborts with an
uncaught `KeyError` (modelled by `none`): some record dict-equal to it
survives pass 1, and its projection fails. -/
theorem preprocess_missing_key_aborts (dataset : List Post) (post : Post)
    (hmem : post ∈ dataset) (hflair : hasFlair post = true)
    (hmiss : post.lookup "author" = none ∨ post.lookup "created_utc" = none ∨
      post.lookup "title" = none) :
    preprocess dataset = none := by
  obtain ⟨q, hq, hqe⟩ := dedupGo_mem_flair dataset [] post hmem hflair
  have hlk := (dictEqb_iff q post).1 hqe
  have hpq : project q = none := by
    refine project_eq_none_of_missing ?_
    rcases hmiss with h | h | h
    · exact Or.inl ((hlk "author").trans h)
    · exact Or.inr (Or.inl ((hlk "created_utc").trans h))
    · exact Or.inr (Or.inr (Or.inl ((hlk "title").trans h)))
  exact projectAll_eq_none hq hpq

/-- Witness for C7: a flaired record lacking the other three keys makes the
whole run fail. -/
theorem preprocess_missing_key_aborts_witness :
    preprocess [w7Post] = none :=
  preprocess_missing_key_aborts [w7Post] w7Post (List.mem_singleton.2 rfl)
    (by decide) (Or.inl (by decide))

/-- C8: on any response with a status other than 200, `get_posts` returns
`None`; the body is never inspected and no exception or retry occurs (the
function is total and ignores the body in this branch). -/
theorem get_posts_non_200_none (net : String → String → Nat → Response)
    (subreddit before : String) (size : Nat)
    (h : (net subreddit before size).status_code ≠ 200) :
    get_posts net subreddit before size = none := by
  rw [get_posts, if_neg h]

/-- Oracle returning status 404 with an arbitrary body. -/
def net404 : String → String → Nat → Response := fun _ _ _ => ⟨404, JVal.null⟩

/-- Witness for C8 at a concrete failing response. -/
theorem get_posts_non_200_none_witness :
    get_posts net404 "science" "0d" 500 = none :=
  get_posts_non_200_none net404 "science" "0d" 500 (by decide)

/-- Record used in the mutation contrast example. -/
def mutA : Post := [("author", JVal.str "a")]

/-- Second record used in the mutation contrast example. -/
def mutB : Post := [("author", JVal.str "b")]

/-- C10: in the state-passing embedding, `preprocess` leaves the contents of
its argument unchanged (same length, same elements, same order) for every
input, whereas `shuffle_and_split` leaves the in-place permutation in its
argument, which in general differs from the original contents. -/
theorem preprocess_does_not_mutate :
    (∀ dataset : List Post, (preprocessSt dataset).2 = dataset) ∧
    (∀ (shuffled : List Post) (ratio : ℚ), (shuffle_and_splitSt shuffled ratio).2 = shuffled) ∧
    (∃ (d shuffled : List Post) (ratio : ℚ),
      shuffled.Perm d ∧ (shuffle_and_splitSt shuffled ratio).2 ≠ d) := by
  refine ⟨fun _ => rfl, fun _ _ => rfl,
    ⟨[mutA, mutB], [mutB, mutA], 4 / 5, List.Perm.swap mutA mutB [], ?_⟩⟩
  decide

/- Lemmas about the collector loop. -/

theorem collectGo_extract (net : String → String → Nat → Response) (nb_per_day : Nat)
    (f : Nat → List JVal) :
    ∀ (idxs : List Nat) (ds : List JVal) (log : List String)
      (reqs : List (String × String × Nat)),
      (∀ i ∈ idxs,
        (net "science" (toString i ++ "d") (min nb_per_day 500)).status_code = 200 ∧
        dataField (net "science" (toString i ++ "d") (min nb_per_day 500)).body = some (f i)) →
      collectGo net nb_per_day idxs ds log reqs =
        ⟨some (ds ++ idxs.flatMap f), log,
         reqs ++ idxs.map fun i => ("science", toString i ++ "d", min nb_per_day 500)⟩ := by
  intro idxs
  induction idxs with
  | nil => intro ds log reqs _; simp [collectGo]
  | cons i rest ih =>
    intro ds log reqs h
    have hi := h i (List.mem_cons_self _ _)
    have hg : get_posts net "science" (toString i ++ "d") (min nb_per_day 500) =
        some (net "science" (toString i ++ "d") (min nb_per_day 500)).body := by
      rw [get_posts, if_pos hi.1]
    rw [collectGo]
    simp only [hg, hi.2]
    rw [ih (ds ++ f i) log (reqs ++ [("science", toString i ++ "d", min nb_per_day 500)])
      fun j hj => h j (List.mem_cons_of_mem _ hj)]
    simp

theorem collectGo_wf (net : String → String → Nat → Response) (nb_per_day : Nat) :
    ∀ (idxs : List Nat) (ds : List JVal) (log : List String)
      (reqs : List (String × String × Nat)),
      (∀ i ∈ idxs,
        (net "science" (toString i ++ "d") (min nb_per_day 500)).status_code = 200 →
        (dataField (net "science" (toString i ++ "d") (min nb_per_day 500)).body).isSome = true) →
      (collectGo net nb_per_day idxs ds log reqs).dataset.isSome = true ∧
      (collectGo net nb_per_day idxs ds log reqs).requests =
        reqs ++ idxs.map (fun i => ("science", toString i ++ "d", min nb_per_day 500)) ∧
      ∀ s ∈ log, s ∈ (collectGo net nb_per_day idxs ds log reqs).log := by
  intro idxs
  induction idxs with
  | nil =>
    intro ds log reqs _
    refine ⟨rfl, by simp [collectGo], fun s hs => hs⟩
  | cons i rest ih =>
    intro ds log reqs h
    by_cases hs : (net "science" (toString i ++ "d") (min nb_per_day 500)).status_code = 200
    · obtain ⟨l, hl⟩ := Option.isSome_iff_exists.1 (h i (List.mem_cons_self _ _) hs)
      have hg : get_posts net "science" (toString i ++ "d") (min nb_per_day 500) =
          some (net "science" (toString i ++ "d") (min nb_per_day 500)).body := by
        rw [get_posts, if_pos hs]
      rw [collectGo]
      simp only [hg, hl]
      obtain ⟨h1, h2, h3⟩ := ih (ds ++ l) log
        (reqs ++ [("science", toString i ++ "d", min nb_per_day 500)])
        (fun j hj => h j (List.mem_cons_of_mem _ hj))
      refine ⟨h1, ?_, h3⟩
      rw [h2]
      simp
    · have hg : get_posts net "science" (toString i ++ "d") (min nb_per_day 500) = none := by
        rw [get_posts, if_neg hs]
      rw [collectGo]
      simp only [hg]
      obtain ⟨h1, h2, h3⟩ := ih ds (log ++ ["[!] Request failed"])
        (reqs ++ [("science", toString i ++ "d", min nb_per_day 500)])
        (fun j hj => h j (List.mem_cons_of_mem _ hj))
      refine ⟨h1, ?_, ?_⟩
      · rw [h2]
        simp
      · intro s hsl
        exact h3 s (List.mem_append_left _ hsl)

/-- C9: when `nb_per_day` exceeds 500, `create_dataset` prints the warning
line, still issues one request per day with the size clamped to
`min(nb_per_day, 500) = 500`, and completes without aborting (whenever each
200 response carries a `data` array, which is the shape the API returns;
failed requests are tolerated). -/
theorem create_dataset_clamp_and_warn (net : String → String → Nat → Response)
    (days nb_per_day : Nat) (hgt : 500 < nb_per_day)
    (hwf : ∀ i, i < days →
      (net "science" (toString i ++ "d") 500).status_code = 200 →
      (dataField (net "science" (toString i ++ "d") 500).body).isSome = true) :
    ("Retrieving " ++ toString nb_per_day ++ " posts per day (can\x27t be >500)") ∈
      (create_dataset net days nb_per_day).log ∧
    (create_dataset net days nb_per_day).requests =
      (List.range days).map (fun i => ("science", toString i ++ "d", 500)) ∧
    (create_dataset net days nb_per_day).dataset.isSome = true := by
  have hmin : min nb_per_day 500 = 500 := Nat.min_eq_right (Nat.le_of_lt hgt)
  rw [create_dataset, if_pos hgt]
  obtain ⟨h1, h2, h3⟩ := collectGo_wf net nb_per_day (List.range days) []
    ["Retrieving " ++ toString nb_per_day ++ " posts per day (can\x27t be >500)"] []
    (by
      intro i hi
      rw [hmin]
      exact hwf i (List.mem_range.1 hi))
  refine ⟨h3 _ (List.mem_singleton.2 rfl), ?_, h1⟩
  rw [h2, hmin]
  simp

/-- Oracle for the C9 witness: always status 200 with an empty `data` array. -/
def wNet9 : String → String → Nat → Response :=
  fun _ _ _ => ⟨200, JVal.objCons "data" JVal.arrNil JVal.objNil⟩

/-- Witness for C9: two days at 600 posts per day. -/
theorem create_dataset_clamp_and_warn_witness :
    ("Retrieving " ++ toString 600 ++ " posts per day (can\x27t be >500)") ∈
      (create_dataset wNet9 2 600).log ∧
    (create_dataset wNet9 2 600).requests =
      (List.range 2).map (fun i => ("science", toString i ++ "d", 500)) ∧
    (create_dataset wNet9 2 600).dataset.isSome = true :=
  create_dataset_clamp_and_warn wNet9 2 600 (by decide)
    (fun _ _ _ => rfl)

/-- Oracle for the C5 counterexample: status 200 with body
`{"data": [1]}`. -/
def net200data : String → String → Nat → Response :=
  fun _ _ _ => ⟨200, JVal.objCons "data" (JVal.arrCons (JVal.int 1) JVal.arrNil) JVal.objNil⟩

/-- C5, counterexample: on a 200 response with body `{"data": [1]}`,
`get_posts` returns the whole parsed object, which is not the array under
the `data` key — contradicting the claim that its return value is the list
of raw posts rather than the enclosing object. -/
theorem get_posts_envelope_cex :
    get_posts net200data "science" "0d" 500 =
      some (JVal.objCons "data" (JVal.arrCons (JVal.int 1) JVal.arrNil) JVal.objNil) ∧
    JVal.objCons "data" (JVal.arrCons (JVal.int 1) JVal.arrNil) JVal.objNil ≠
      JVal.arrCons (JVal.int 1) JVal.arrNil :=
  ⟨rfl, by decide⟩

/-- C5 (amended): on HTTP status 200, `get_posts` parses the body and
returns the full JSON object; it is the caller `create_dataset` that
extracts the array under the `data` key and extends the dataset with it,
day by day. -/
theorem get_posts_full_body_collector_extracts :
    (∀ (net : String → String → Nat → Response) (subreddit before : String) (size : Nat),
      (net subreddit before size).status_code = 200 →
      get_posts net subreddit before size = some (net subreddit before size).body) ∧
    (∀ (net : String → String → Nat → Response) (days nb_per_day : Nat) (f : Nat → List JVal),
      (∀ i, i < days →
        (net "science" (toString i ++ "d") (min nb_per_day 500)).status_code = 200 ∧
        dataField (net "science" (toString i ++ "d") (min nb_per_day 500)).body = some (f i)) →
      (create_dataset net days nb_per_day).dataset = some ((List.range days).flatMap f)) := by
  constructor
  · intro net subreddit before size h
    rw [get_posts, if_pos h]
  · intro net days nb_per_day f h
    rw [create_dataset, collectGo_extract net nb_per_day f (List.range days) _ _ _
      (fun i hi => h i (List.mem_range.1 hi))]
    simp

/-- Oracle for the C5 witness: status 200 with body `{"data": [3]}`. -/
def wNet5 : String → String → Nat → Response :=
  fun _ _ _ => ⟨200, JVal.objCons "data" (JVal.arrCons (JVal.int 3) JVal.arrNil) JVal.objNil⟩

/-- Day-indexed data arrays returned by `wNet5`. -/
def wF5 : Nat → List JVal := fun _ => [JVal.int 3]

/-- Witness for C5 (amended) at a concrete oracle and a one-day run. -/
theorem get_posts_full_body_collector_extracts_witness :
    get_posts wNet5 "science" "0d" 500 = some (wNet5 "science" "0d" 500).body ∧
    (create_dataset wNet5 1 500).dataset = some ((List.range 1).flatMap wF5) :=
  ⟨get_posts_full_body_collector_extracts.1 wNet5 "science" "0d" 500 rfl,
   get_posts_full_body_collector_extracts.2 wNet5 1 500 wF5
     (fun _ _ => ⟨rfl, rfl⟩)⟩

/-- C1: for every ratio in [0, 1] and every permutation the shuffle can
produce, the two slices returned by `shuffle_and_split` are a partition of
the input dataset: their lengths add up to the input length and their
concatenation is a permutation (multiset equality) of the input. -/
theorem shuffle_and_split_is_partition (d shuffled : List Post) (ratio : ℚ)
    (_h0 : 0 ≤ ratio) (_h1 : ratio ≤ 1) (hperm : shuffled.Perm d) :
    (shuffle_and_split shuffled ratio).1.length +
      (shuffle_and_split shuffled ratio).2.length = d.length ∧
    ((shuffle_and_split shuffled ratio).1 ++ (shuffle_and_split shuffled ratio).2).Perm d := by
  have hlen := hperm.length_eq
  constructor
  · simp only [shuffle_and_split, List.length_take, List.length_drop]
    omega
  · simp only [shuffle_and_split]
    rw [List.take_append_drop]
    exact hperm

/-- Witness for C1 at ratio 4/5 on a two-element dataset. -/
theorem shuffle_and_split_is_partition_witness :
    (shuffle_and_split [mutA, mutB] (4 / 5)).1.length +
      (shuffle_and_split [mutA, mutB] (4 / 5)).2.length = ([mutA, mutB] : List Post).length ∧
    ((shuffle_and_split [mutA, mutB] (4 / 5)).1 ++
      (shuffle_and_split [mutA, mutB] (4 / 5)).2).Perm [mutA, mutB] :=
  shuffle_and_split_is_partition [mutA, mutB] [mutA, mutB] (4 / 5)
    (by norm_num) (by norm_num) (List.Perm.refl _)

/-- The IEEE-754 binary64 value nearest 1/3: `6004799503160661 · 2⁻⁵⁴`
(the Python float `0.3333333333333333`). -/
def q13 : ℚ := 6004799503160661 / 18014398509481984

/-- Third record of the three-element counterexample dataset. -/
def mutC : Post := [("author", JVal.str "c")]

/-- Three-element dataset for the rounding counterexample. -/
def d3 : List Post := [mutA, mutB, mutC]

theorem q13_mul_three : q13 * 3 = 18014398509481983 / 18014398509481984 := by
  norm_num [q13]

theorem log_q13three :
    Int.log 2 ((18014398509481983 : ℚ) / 18014398509481984) = -1 := by
  have h0 : (0 : ℚ) < 18014398509481983 / 18014398509481984 := by norm_num
  have hle : ((2 : ℕ) : ℚ) ^ (-1 : ℤ) ≤ 18014398509481983 / 18014398509481984 := by
    rw [zpow_neg, zpow_one]
    norm_num
  have hlt : (18014398509481983 : ℚ) / 18014398509481984 < ((2 : ℕ) : ℚ) ^ (0 : ℤ) := by
    rw [zpow_zero]
    norm_num
  have h1 : (-1 : ℤ) ≤ Int.log 2 ((18014398509481983 : ℚ) / 18014398509481984) :=
    (Int.zpow_le_iff_le_log (by norm_num) h0).1 hle
  have h2 : Int.log 2 ((18014398509481983 : ℚ) / 18014398509481984) < 0 :=
    (Int.lt_zpow_iff_log_lt (by norm_num) h0).1 hlt
  omega

theorem roundHalfEven_ties : roundHalfEven ((18014398509481983 : ℚ) / 2) = 9007199254740992 := by
  have hfloor : ⌊(18014398509481983 : ℚ) / 2⌋ = 9007199254740991 := by
    rw [Int.floor_eq_iff]
    constructor <;> norm_num
  rw [roundHalfEven, hfloor]
  norm_num

theorem fl64_q13three : fl64 (q13 * 3) = 1 := by
  rw [q13_mul_three, fl64]
  rw [if_neg (by norm_num : ¬((18014398509481983 : ℚ) / 18014398509481984 = 0))]
  rw [if_pos (by norm_num : (0 : ℚ) < 18014398509481983 / 18014398509481984)]
  rw [log_q13three]
  have harg : (18014398509481983 : ℚ) / 18014398509481984 * 2 ^ ((52 : ℤ) - (-1)) =
      18014398509481983 / 2 := by
    norm_num
  rw [harg, roundHalfEven_ties]
  have hexp : ((-1 : ℤ) - 52) = (-53 : ℤ) := by norm_num
  rw [hexp, zpow_neg]
  norm_num

/-- C4, counterexample: with ratio the double nearest 1/3 and a dataset of
three records, the binary64 product `ratio * 3` rounds up to exactly 1.0,
so the code computes `int(1.0) = 1` and the train slice has length 1, while
the floor of the exact rational product is 0.  The identity permutation is
a possible shuffle outcome, so the claimed length `floor(r * len(D))` fails. -/
theorem shuffle_and_split_float_rounding_cex :
    (0 : ℚ) ≤ q13 ∧ q13 ≤ 1 ∧ d3.Perm d3 ∧
    (shuffle_and_split d3 q13).1.length = 1 ∧
    (⌊q13 * ((d3.length : ℚ))⌋).toNat = 0 ∧
    (shuffle_and_split d3 q13).1.length ≠ (⌊q13 * ((d3.length : ℚ))⌋).toNat := by
  have h3 : ((d3.length : ℚ)) = 3 := by norm_num [d3]
  have hk : (pyInt (fl64 (q13 * (d3.length : ℚ)))).toNat = 1 := by
    rw [h3, fl64_q13three, pyInt, if_pos (by norm_num : (0 : ℚ) ≤ 1)]
    norm_num
  have htake : (shuffle_and_split d3 q13).1.length = 1 := by
    simp only [shuffle_and_split]
    rw [hk]
    rfl
  have hfloor : (⌊q13 * ((d3.length : ℚ))⌋).toNat = 0 := by
    rw [h3, q13_mul_three]
    have hf : ⌊(18014398509481983 : ℚ) / 18014398509481984⌋ = 0 := by
      rw [Int.floor_eq_iff]
      constructor <;> norm_num
    rw [hf]
    rfl
  refine ⟨by norm_num [q13], by norm_num [q13], List.Perm.refl _, htake, hfloor, ?_⟩
  rw [htake, hfloor]
  exact one_ne_zero

/-- C4 (amended): the length of the train slice is `int(fl64(ratio * len))` —
the truncation of the binary64-rounded product — clamped to the dataset
length by slicing.  This agrees with `floor` of the exact rational product
whenever the float rounding of the product does not cross an integer, but
can differ by one when it does (see the counterexample). -/
theorem shuffle_and_split_train_length (shuffled : List Post) (ratio : ℚ)
    (_h : 0 ≤ ratio) :
    (shuffle_and_split shuffled ratio).1.length =
      min ((pyInt (fl64 (ratio * (shuffled.length : ℚ)))).toNat) shuffled.length := by
  simp [shuffle_and_split, List.length_take]

/-- Witness for C4 (amended) at ratio 4/5 on a one-element dataset. -/
theorem shuffle_and_split_train_length_witness :
    (shuffle_and_split [wPost] (4 / 5)).1.length =
      min ((pyInt (fl64 ((4 / 5) * (([wPost] : List Post).length : ℚ)))).toNat)
        ([wPost] : List Post).length :=
  shuffle_and_split_train_length [wPost] (4 / 5) (by norm_num)
